import Mathlib

/-!
# Todo API server (`src/backend/server.js`): dual-path persistence

A shallow embedding of the four data handlers of the Express server and of the
in-memory fallback storage they share.

Modelling decisions.

* The two module-level variables `todos` and `nextId` (lines 22-27) become the
  fields of an explicit `Store` that every handler receives and returns.
* `pool.query` is the only way the handlers reach the relational store.  It is
  an argument `db : Db` of every handler: a function from the query that is
  issued to either `.error message` (the awaited promise rejects, the `catch`
  block runs) or `.ok result` (the promise resolves to a result with `rows`
  and `rowCount`).  Every handler also returns the list of queries it issued.
* Values taken from the JSON request body are `JsVal`s.  JavaScript numbers are
  restricted to integers; identifiers stay below `2 ^ 53`, where the
  double-precision arithmetic of `nextId++` and of `parseInt` is exact, so they
  are modelled by unbounded integers.
* Logging (`console.error`) is not modelled.
-/

namespace TodoServer

/-! ## Values -/

/-- A value found in a parsed JSON request body.  `undefined` is what
destructuring yields for a missing field; `object` stands for any array or
object. -/
inductive JsVal where
  | undefined
  | null
  | bool (b : Bool)
  | num (n : Int)
  | str (s : String)
  | object
  deriving DecidableEq, Repr

/-- JavaScript truthiness, as used by `if (!text)` on line 90. -/
def JsVal.truthy : JsVal → Bool
  | .undefined => false
  | .null => false
  | .bool b => b
  | .num n => n != 0
  | .str s => s != ""
  | .object => true

/-- An element of the in-memory array `todos` (lines 22-26 and 104-108). -/
structure Todo where
  id : Int
  text : JsVal
  completed : JsVal
  deriving DecidableEq, Repr

/-- The in-memory fallback storage: the variables `todos` and `nextId`. -/
structure Store where
  todos : List Todo
  nextId : Int
  deriving DecidableEq, Repr

/-- The storage at process start (lines 22-27). -/
def initialStore : Store :=
  { todos :=
      [ { id := 1, text := .str "Learn DevOps", completed := .bool false },
        { id := 2, text := .str "Fix hardcoded values", completed := .bool false },
        { id := 3, text := .str "Deploy to production", completed := .bool false } ],
    nextId := 4 }

/-- A row of the table created on lines 42-47: `id SERIAL PRIMARY KEY`,
`text VARCHAR(255) NOT NULL`, nullable `completed BOOLEAN` and nullable
`created_at TIMESTAMP`. -/
structure Row where
  id : Int
  text : String
  completed : Option Bool
  created_at : Option String
  deriving DecidableEq, Repr

/-- What a resolved `pool.query` yields: the fields `rows` and `rowCount`. -/
structure QueryResult where
  rows : List Row
  rowCount : Nat
  deriving DecidableEq, Repr

/-- The statements sent through `pool.query`, with their parameters.
`none` as an id stands for `NaN`. -/
inductive Query where
  /-- Line 78: `SELECT * FROM todos ORDER BY id`. -/
  | selectAll
  /-- Lines 96-99: `INSERT INTO todos (text, completed) VALUES ($1, $2) RETURNING *`. -/
  | insert (text : JsVal) (completed : Bool)
  /-- Lines 121-124: `UPDATE todos SET text = COALESCE($1, text), ... WHERE id = $3 RETURNING *`. -/
  | update (text : JsVal) (completed : JsVal) (id : Option Int)
  /-- Line 153: `DELETE FROM todos WHERE id = $1`. -/
  | delete (id : Option Int)
  deriving DecidableEq, Repr

/-- The relational store as the handlers see it: run a query, get a result or
an error message. -/
abbrev Db := Query → Except String QueryResult

/-- The body passed to `res.json` / `res.send`. -/
inductive Payload where
  /-- An empty body: `res.status(204).send()`. -/
  | empty
  /-- An error object with the field `error`. -/
  | error (message : String)
  /-- The in-memory array `todos`. -/
  | todos (items : List Todo)
  /-- An element of the in-memory array; `none` is `undefined`. -/
  | todo (item : Option Todo)
  /-- The rows of a query result. -/
  | rows (items : List Row)
  /-- The expression `result.rows[0]`; `none` is `undefined`. -/
  | row (item : Option Row)
  deriving DecidableEq, Repr

/-- An HTTP response: status code and body. -/
structure Response where
  status : Nat
  body : Payload
  deriving DecidableEq, Repr

/-- The destructured request body `const { text, completed } = req.body`. -/
structure Body where
  text : JsVal
  completed : JsVal
  deriving DecidableEq, Repr

/-- The effect of one handler call. -/
structure Outcome where
  response : Response
  store : Store
  queries : List Query
  deriving DecidableEq, Repr

/-! ## `parseInt` -/

/-- The characters skipped at the start of the argument of `parseInt`:
white space and line terminators. -/
def isStrWhiteSpaceChar (c : Char) : Bool :=
  let n := c.toNat
  n = 0x09 || n = 0x0A || n = 0x0B || n = 0x0C || n = 0x0D || n = 0x20 ||
  n = 0xA0 || n = 0x1680 || (0x2000 ≤ n && n ≤ 0x200A) || n = 0x2028 ||
  n = 0x2029 || n = 0x202F || n = 0x205F || n = 0x3000 || n = 0xFEFF

/-- The value of a character as a digit, in any radix up to 36. -/
def digitValue (c : Char) : Option Nat :=
  let n := c.toNat
  if 48 ≤ n ∧ n ≤ 57 then some (n - 48)
  else if 97 ≤ n ∧ n ≤ 122 then some (n - 97 + 10)
  else if 65 ≤ n ∧ n ≤ 90 then some (n - 65 + 10)
  else none

/-- The digits of the longest prefix made of digits of the given radix. -/
def takeDigits (radix : Nat) : List Char → List Nat
  | [] => []
  | c :: cs =>
    match digitValue c with
    | some d => if d < radix then d :: takeDigits radix cs else []
    | none => []

/-- The number denoted by a list of digits, most significant first. -/
def digitsValue (radix : Nat) (ds : List Nat) : Nat :=
  ds.foldl (fun acc d => acc * radix + d) 0

/-- The builtin `parseInt(string)` without a radix argument; `none` is `NaN`. -/
def parseInt (input : String) : Option Int :=
  let s := input.toList.dropWhile isStrWhiteSpaceChar
  let signed : Int × List Char :=
    match s with
    | '-' :: r => (-1, r)
    | '+' :: r => (1, r)
    | _ => (1, s)
  let based : Nat × List Char :=
    match signed.2 with
    | '0' :: 'x' :: r => (16, r)
    | '0' :: 'X' :: r => (16, r)
    | _ => (10, signed.2)
  match takeDigits based.1 based.2 with
  | [] => none
  | ds => some (signed.1 * (digitsValue based.1 ds : Int))

/-! ## The in-memory array operations -/

/-- The array method `findIndex`; `none` is the result `-1`. -/
def findIndex (p : Todo → Bool) : List Todo → Option Nat
  | [] => none
  | t :: ts => if p t then some 0 else (findIndex p ts).map (· + 1)

/-- The comparison `todo.id === id` of lines 134 and 163. -/
def idMatches (id : Option Int) (todo : Todo) : Bool :=
  decide (id = some todo.id)

/-- The assignment `todos[i].text = text`. -/
def setText (text : JsVal) : Nat → List Todo → List Todo
  | _, [] => []
  | 0, t :: ts => { t with text := text } :: ts
  | i + 1, t :: ts => t :: setText text i ts

/-- The assignment `todos[i].completed = completed`. -/
def setCompleted (completed : JsVal) : Nat → List Todo → List Todo
  | _, [] => []
  | 0, t :: ts => { t with completed := completed } :: ts
  | i + 1, t :: ts => t :: setCompleted completed i ts

/-- The call `todos.splice(i, 1)`. -/
def splice (i : Nat) (todos : List Todo) : List Todo :=
  todos.eraseIdx i

/-! ## The handlers -/

/-- Handler of `GET /api/todos` (lines 75-84). -/
def listTodos (db : Db) (s : Store) : Outcome :=
  match db .selectAll with
  | .ok result =>
    { response := ⟨200, .rows result.rows⟩, store := s, queries := [.selectAll] }
  | .error _ =>
    { response := ⟨200, .todos s.todos⟩, store := s, queries := [.selectAll] }

/-- Handler of `POST /api/todos` (lines 87-112). -/
def createTodo (db : Db) (body : Body) (s : Store) : Outcome :=
  let text := body.text
  if !text.truthy then
    { response := ⟨400, .error "Text is required"⟩, store := s, queries := [] }
  else
    match db (.insert text false) with
    | .ok result =>
      { response := ⟨201, .row result.rows.head?⟩, store := s,
        queries := [.insert text false] }
    | .error _ =>
      let newTodo : Todo := { id := s.nextId, text := text, completed := .bool false }
      { response := ⟨201, .todo (some newTodo)⟩,
        store := { todos := s.todos ++ [newTodo], nextId := s.nextId + 1 },
        queries := [.insert text false] }

/-- Handler of `PUT /api/todos/:id` (lines 115-145). -/
def updateTodo (db : Db) (param : String) (body : Body) (s : Store) : Outcome :=
  let id := parseInt param
  let text := body.text
  let completed := body.completed
  match db (.update text completed id) with
  | .ok result =>
    if result.rows.length = 0 then
      { response := ⟨404, .error "Todo not found"⟩, store := s,
        queries := [.update text completed id] }
    else
      { response := ⟨200, .row result.rows.head?⟩, store := s,
        queries := [.update text completed id] }
  | .error _ =>
    match findIndex (idMatches id) s.todos with
    | none =>
      { response := ⟨404, .error "Todo not found"⟩, store := s,
        queries := [.update text completed id] }
    | some todoIndex =>
      let todos1 := if text ≠ .undefined then setText text todoIndex s.todos else s.todos
      let todos2 :=
        if completed ≠ .undefined then setCompleted completed todoIndex todos1 else todos1
      { response := ⟨200, .todo (todos2.get? todoIndex)⟩,
        store := { todos := todos2, nextId := s.nextId },
        queries := [.update text completed id] }

/-- Handler of `DELETE /api/todos/:id` (lines 148-172). -/
def deleteTodo (db : Db) (param : String) (s : Store) : Outcome :=
  let id := parseInt param
  match db (.delete id) with
  | .ok result =>
    if result.rowCount = 0 then
      { response := ⟨404, .error "Todo not found"⟩, store := s, queries := [.delete id] }
    else
      { response := ⟨204, .empty⟩, store := s, queries := [.delete id] }
  | .error _ =>
    match findIndex (idMatches id) s.todos with
    | none =>
      { response := ⟨404, .error "Todo not found"⟩, store := s, queries := [.delete id] }
    | some todoIndex =>
      { response := ⟨204, .empty⟩,
        store := { todos := splice todoIndex s.todos, nextId := s.nextId },
        queries := [.delete id] }

/-! ## Requests and reachable storage -/

/-- A request to one of the four data routes. -/
inductive Request where
  | list
  | create (body : Body)
  | update (param : String) (body : Body)
  | delete (param : String)
  deriving DecidableEq, Repr

/-- Route dispatch. -/
def handle (db : Db) : Request → Store → Outcome
  | .list, s => listTodos db s
  | .create body, s => createTodo db body s
  | .update param body, s => updateTodo db param body s
  | .delete param, s => deleteTodo db param s

/-- The storage after a sequence of calls, each with the behaviour of the
relational store during that call. -/
def runCalls : List (Db × Request) → Store → Store
  | [], s => s
  | (db, req) :: rest, s => runCalls rest (handle db req s).store

/-- The storage `s2` can be reached from `s1` by some sequence of calls, with
any behaviour of the relational store at each call. -/
inductive ReachableFrom (s1 : Store) : Store → Prop where
  | refl : ReachableFrom s1 s1
  | step {s : Store} (db : Db) (req : Request) :
      ReachableFrom s1 s → ReachableFrom s1 (handle db req s).store

/-- The storage can be reached from the state at process start. -/
def Reachable (s : Store) : Prop := ReachableFrom initialStore s

/-- The relational store fails on every query of this call. -/
def Unavailable (db : Db) : Prop := ∀ q, ∃ e, db q = .error e

/-- A relational store that rejects every query with the given message. -/
def downDb (message : String) : Db := fun _ => .error message

/-! ## Specification predicates -/

/-- The identifiers held by a storage are strictly ascending in array order,
positive and smaller than `nextId`, which is positive. -/
def StoreInv (s : Store) : Prop :=
  (s.todos.map (·.id)).Pairwise (· < ·)
    ∧ (∀ i ∈ s.todos.map (·.id), 0 < i ∧ i < s.nextId) ∧ 0 < s.nextId

/-- The `id`, `text` and `completed` columns of a row as an item. -/
def Row.toTodo (r : Row) : Todo :=
  { id := r.id, text := .str r.text,
    completed := match r.completed with
      | some b => .bool b
      | none => .null }

/-- The single item a response body carries, if it carries one. -/
def Payload.item? : Payload → Option Todo
  | .todo item => item
  | .row item => item.map Row.toTodo
  | _ => none

/-- A relational store holding the empty table of lines 42-47, as it answers
the insertion of lines 96-99 into the column `text VARCHAR(255)` of line 44: a
text of at most 255 characters is stored as given; a longer text whose
characters past the 255th are all spaces is stored cut to 255 characters; any
other longer text is rejected.  The row gets the first value of the `SERIAL`
sequence.  Every other statement is rejected. -/
def varcharDb : Db
  | .insert (.str t) completed =>
    if t.length ≤ 255 then
      .ok ⟨[⟨1, t, some completed, none⟩], 1⟩
    else if (t.toList.drop 255).all (fun ch => ch = ' ') then
      .ok ⟨[⟨1, String.mk (t.toList.take 255), some completed, none⟩], 1⟩
    else
      .error "value too long for type character varying(255)"
  | _ => .error "connection refused"

/-- The item has a non-empty string as `text` and a boolean as `completed`. -/
def Todo.wellFormed (t : Todo) : Bool :=
  match t.text, t.completed with
  | .str s, .bool _ => s != ""
  | _, _ => false

/-- The value is absent or a string. -/
def JsVal.stringOrAbsent : JsVal → Bool
  | .undefined => true
  | .str _ => true
  | _ => false

/-- The value is absent or a non-empty string. -/
def JsVal.nonEmptyStringOrAbsent : JsVal → Bool
  | .undefined => true
  | .str s => s != ""
  | _ => false

/-- The value is absent or a boolean. -/
def JsVal.boolOrAbsent : JsVal → Bool
  | .undefined => true
  | .bool _ => true
  | _ => false

/-- The body of the request is typed as the data model asks: the `text` of a
create request is absent or a string; in an update request `text` is absent or
a non-empty string and `completed` is absent or a boolean. -/
def Request.wellTyped : Request → Bool
  | .list => true
  | .create body => body.text.stringOrAbsent
  | .update _ body => body.text.nonEmptyStringOrAbsent && body.completed.boolOrAbsent
  | .delete _ => true

/-- The response sent from inside the `try` block of each handler, once the
query has resolved to the given result (lines 79, 100, 126-130, 155-159). -/
def durableResponse : Request → QueryResult → Response
  | .list, r => ⟨200, .rows r.rows⟩
  | .create _, r => ⟨201, .row r.rows.head?⟩
  | .update _ _, r =>
    if r.rows.length = 0 then ⟨404, .error "Todo not found"⟩ else ⟨200, .row r.rows.head?⟩
  | .delete _, r =>
    if r.rowCount = 0 then ⟨404, .error "Todo not found"⟩ else ⟨204, .empty⟩

/-! ## Lemmas on the array operations -/

theorem findIndex_eq_none {p : Todo → Bool} {l : List Todo} :
    findIndex p l = none ↔ ∀ t ∈ l, p t = false := by
  induction l with
  | nil => simp [findIndex]
  | cons t ts ih =>
    by_cases h : p t = true
    · simp [findIndex, h]
    · simp [findIndex, h, ih]

theorem findIndex_eq_some_mem {p : Todo → Bool} {l : List Todo} {k : Nat}
    (h : findIndex p l = some k) : ∃ t, l.get? k = some t ∧ p t = true := by
  induction l generalizing k with
  | nil => simp [findIndex] at h
  | cons t ts ih =>
    by_cases hp : p t = true
    · simp [findIndex, hp] at h
      subst h
      exact ⟨t, by simp, hp⟩
    · simp [findIndex, hp] at h
      obtain ⟨k1, hk1, rfl⟩ := h
      obtain ⟨t1, ht1, hpt1⟩ := ih hk1
      exact ⟨t1, by simpa using ht1, hpt1⟩

theorem map_id_setText (v : JsVal) (k : Nat) (l : List Todo) :
    (setText v k l).map (·.id) = l.map (·.id) := by
  induction l generalizing k with
  | nil => cases k <;> simp [setText]
  | cons t ts ih => cases k <;> simp [setText, ih]

theorem map_id_setCompleted (v : JsVal) (k : Nat) (l : List Todo) :
    (setCompleted v k l).map (·.id) = l.map (·.id) := by
  induction l generalizing k with
  | nil => cases k <;> simp [setCompleted]
  | cons t ts ih => cases k <;> simp [setCompleted, ih]

/-- With strictly ascending identifiers, assigning `completed` at the index
found for an identifier rewrites exactly the items with that identifier. -/
theorem setCompleted_at_found (v : JsVal) (i : Int) {l : List Todo} {k : Nat}
    (hp : (l.map (·.id)).Pairwise (· < ·))
    (hk : findIndex (idMatches (some i)) l = some k) :
    setCompleted v k l
      = l.map (fun x => if x.id = i then { x with completed := v } else x) := by
  induction l generalizing k with
  | nil => simp [findIndex] at hk
  | cons t ts ih =>
    simp only [List.map_cons, List.pairwise_cons] at hp
    obtain ⟨hhead, htail⟩ := hp
    by_cases hm : idMatches (some i) t = true
    · simp [findIndex, hm] at hk
      subst hk
      have hti : t.id = i := by simpa [idMatches, eq_comm] using hm
      have hrest : ts.map (fun x => if x.id = i then { x with completed := v } else x) = ts := by
        conv_rhs => rw [← List.map_id ts]
        apply List.map_congr_left
        intro x hx
        have : t.id < x.id := hhead x.id (List.mem_map_of_mem _ hx)
        have hne : x.id ≠ i := by omega
        simp [hne]
      simp [setCompleted, hti, hrest]
    · simp [findIndex, hm] at hk
      obtain ⟨k1, hk1, rfl⟩ := hk
      have hti : t.id ≠ i := by
        intro h
        apply hm
        simp [idMatches, h]
      simp [setCompleted, hti, ih htail hk1]

/-- With strictly ascending identifiers, removing the index found for an
identifier removes exactly the items with that identifier. -/
theorem splice_at_found (i : Int) {l : List Todo} {k : Nat}
    (hp : (l.map (·.id)).Pairwise (· < ·))
    (hk : findIndex (idMatches (some i)) l = some k) :
    splice k l = l.filter (fun x => decide (x.id ≠ i)) ∧ (splice k l).length + 1 = l.length := by
  induction l generalizing k with
  | nil => simp [findIndex] at hk
  | cons t ts ih =>
    simp only [List.map_cons, List.pairwise_cons] at hp
    obtain ⟨hhead, htail⟩ := hp
    by_cases hm : idMatches (some i) t = true
    · simp [findIndex, hm] at hk
      subst hk
      have hti : t.id = i := by simpa [idMatches, eq_comm] using hm
      have hrest : ts.filter (fun x => !decide (x.id = i)) = ts := by
        apply List.filter_eq_self.mpr
        intro x hx
        have : t.id < x.id := hhead x.id (List.mem_map_of_mem _ hx)
        have hne : x.id ≠ i := by omega
        simp [hne]
      simp [splice, hti, hrest]
    · simp [findIndex, hm] at hk
      obtain ⟨k1, hk1, rfl⟩ := hk
      have hti : t.id ≠ i := by
        intro h
        apply hm
        simp [idMatches, h]
      have h2 := ih htail hk1
      simp only [splice, ne_eq, decide_not] at h2
      simp only [splice, ne_eq, decide_not, List.eraseIdx_cons_succ, List.length_cons]
      rw [List.filter_cons_of_pos (by simp [hti]), h2.1]
      exact ⟨rfl, by rw [← h2.1]; omega⟩

/-! ## Lemmas on the handlers -/

theorem updateTodo_ids (db : Db) (param : String) (body : Body) (s : Store) :
    (updateTodo db param body s).store.todos.map (·.id) = s.todos.map (·.id)
      ∧ (updateTodo db param body s).store.nextId = s.nextId := by
  unfold updateTodo
  simp only
  split
  · split <;> simp
  · split
    · simp
    · constructor
      · simp only
        split <;> split <;> simp [map_id_setText, map_id_setCompleted]
      · rfl

theorem deleteTodo_ids (db : Db) (param : String) (s : Store) :
    ((deleteTodo db param s).store.todos.map (·.id)).Sublist (s.todos.map (·.id))
      ∧ (deleteTodo db param s).store.nextId = s.nextId := by
  unfold deleteTodo
  simp only
  split
  · split <;> simp
  · split
    · simp
    · exact ⟨(List.eraseIdx_sublist _ _).map _, rfl⟩

theorem createTodo_ids (db : Db) (body : Body) (s : Store) :
    ((createTodo db body s).store = s) ∨
      ((createTodo db body s).store.todos.map (·.id) = s.todos.map (·.id) ++ [s.nextId]
        ∧ (createTodo db body s).store.nextId = s.nextId + 1) := by
  unfold createTodo
  simp only
  split
  · exact Or.inl rfl
  · split
    · exact Or.inl rfl
    · exact Or.inr ⟨by simp, rfl⟩

theorem list_store (db : Db) (s : Store) : (listTodos db s).store = s := by
  unfold listTodos
  split <;> rfl

/-- Every handler keeps the identifiers ascending, positive and below
`nextId`. -/
theorem handle_storeInv (db : Db) (req : Request) {s : Store} (h : StoreInv s) :
    StoreInv (handle db req s).store := by
  obtain ⟨hp, hb, h0⟩ := h
  cases req with
  | list =>
    show StoreInv (listTodos db s).store
    rw [list_store]
    exact ⟨hp, hb, h0⟩
  | create body =>
    show StoreInv (createTodo db body s).store
    rcases createTodo_ids db body s with h | ⟨h1, h2⟩
    · rw [h]
      exact ⟨hp, hb, h0⟩
    · refine ⟨?_, ?_, ?_⟩
      · rw [h1, List.pairwise_append]
        refine ⟨hp, by simp, ?_⟩
        intro a ha b hb2
        simp only [List.mem_singleton] at hb2
        subst hb2
        exact (hb a ha).2
      · rw [h1, h2]
        intro i hi
        rcases List.mem_append.mp hi with hi | hi
        · have := hb i hi
          omega
        · simp only [List.mem_singleton] at hi
          subst hi
          omega
      · rw [h2]
        omega
  | update param body =>
    show StoreInv (updateTodo db param body s).store
    obtain ⟨h1, h2⟩ := updateTodo_ids db param body s
    refine ⟨?_, ?_, ?_⟩
    · rw [h1]
      exact hp
    · rw [h1, h2]
      exact hb
    · rw [h2]
      exact h0
  | delete param =>
    show StoreInv (deleteTodo db param s).store
    obtain ⟨h1, h2⟩ := deleteTodo_ids db param s
    refine ⟨hp.sublist h1, ?_, ?_⟩
    · intro i hi
      rw [h2]
      exact hb i (h1.subset hi)
    · rw [h2]
      exact h0

theorem initialStore_storeInv : StoreInv initialStore := by
  refine ⟨?_, ?_, ?_⟩
  · simp [initialStore]
  · simp [initialStore]
  · simp [initialStore]

/-- The invariant holds in every storage reachable from one where it holds. -/
theorem reachableFrom_storeInv {s1 s2 : Store} (h : ReachableFrom s1 s2)
    (h1 : StoreInv s1) : StoreInv s2 := by
  induction h with
  | refl => exact h1
  | step db req _ ih => exact handle_storeInv db req ih

theorem reachable_storeInv {s : Store} (h : Reachable s) : StoreInv s :=
  reachableFrom_storeInv h initialStore_storeInv

/-- A handler never lowers `nextId`, and an identifier below `nextId` that no
item has is not given to any item. -/
theorem handle_fresh (db : Db) (req : Request) {s : Store} :
    s.nextId ≤ (handle db req s).store.nextId
      ∧ ∀ i, i < s.nextId → i ∉ s.todos.map (·.id) →
          i ∉ (handle db req s).store.todos.map (·.id) := by
  cases req with
  | list =>
    show _ ≤ (listTodos db s).store.nextId ∧ _
    simp only [handle]
    rw [list_store]
    exact ⟨le_refl _, fun _ _ h => h⟩
  | create body =>
    show _ ≤ (createTodo db body s).store.nextId ∧ _
    simp only [handle]
    rcases createTodo_ids db body s with h | ⟨h1, h2⟩
    · rw [h]
      exact ⟨le_refl _, fun _ _ h => h⟩
    · rw [h1, h2]
      refine ⟨by omega, ?_⟩
      intro i hi hni hmem
      rcases List.mem_append.mp hmem with hm | hm
      · exact hni hm
      · simp only [List.mem_singleton] at hm
        omega
  | update param body =>
    show _ ≤ (updateTodo db param body s).store.nextId ∧ _
    simp only [handle]
    obtain ⟨h1, h2⟩ := updateTodo_ids db param body s
    rw [h1, h2]
    exact ⟨le_refl _, fun _ _ h => h⟩
  | delete param =>
    show _ ≤ (deleteTodo db param s).store.nextId ∧ _
    simp only [handle]
    obtain ⟨h1, h2⟩ := deleteTodo_ids db param s
    rw [h2]
    exact ⟨le_refl _, fun _ _ hni hmem => hni (h1.subset hmem)⟩

theorem reachableFrom_fresh {s1 s2 : Store} (h : ReachableFrom s1 s2) :
    s1.nextId ≤ s2.nextId
      ∧ ∀ i, i < s1.nextId → i ∉ s1.todos.map (·.id) → i ∉ s2.todos.map (·.id) := by
  induction h with
  | refl => exact ⟨le_refl _, fun _ _ h => h⟩
  | step db req _ ih =>
    obtain ⟨hle, hfresh⟩ := ih
    obtain ⟨hle2, hfresh2⟩ := @handle_fresh db req _
    refine ⟨le_trans hle hle2, ?_⟩
    intro i hi hni
    exact hfresh2 i (lt_of_lt_of_le hi hle) (hfresh i hi hni)

/-- Reachable storages are exactly the results of running call sequences. -/
theorem reachableFrom_iff_runCalls (s1 s2 : Store) :
    ReachableFrom s1 s2 ↔ ∃ calls, runCalls calls s1 = s2 := by
  constructor
  · intro h
    induction h with
    | refl => exact ⟨[], rfl⟩
    | step db req _ ih =>
      obtain ⟨calls, hc⟩ := ih
      refine ⟨calls ++ [(db, req)], ?_⟩
      subst hc
      clear * -
      induction calls generalizing s1 with
      | nil => rfl
      | cons c cs ih2 => exact ih2 _
  · rintro ⟨calls, rfl⟩
    suffices H : ∀ s, ReachableFrom s1 s → ReachableFrom s1 (runCalls calls s) from
      H s1 ReachableFrom.refl
    induction calls with
    | nil => exact fun s h => h
    | cons c cs ih =>
      intro s h
      exact ih _ (ReachableFrom.step c.1 c.2 h)

theorem truthy_str {t : String} (ht : t ≠ "") : (JsVal.str t).truthy = true := by
  simp [JsVal.truthy, ht]

theorem createTodo_fallback (db : Db) (body : Body) (s : Store)
    (ht : body.text.truthy = true) (hdb : ∃ e, db (.insert body.text false) = .error e) :
    createTodo db body s
      = { response := ⟨201, .todo (some ⟨s.nextId, body.text, .bool false⟩)⟩,
          store := ⟨s.todos ++ [⟨s.nextId, body.text, .bool false⟩], s.nextId + 1⟩,
          queries := [.insert body.text false] } := by
  obtain ⟨e, he⟩ := hdb
  simp [createTodo, ht, he]

theorem listTodos_fallback (db : Db) (s : Store) (hdb : ∃ e, db .selectAll = .error e) :
    listTodos db s
      = { response := ⟨200, .todos s.todos⟩, store := s, queries := [.selectAll] } := by
  obtain ⟨e, he⟩ := hdb
  simp [listTodos, he]

/-- A run of create calls that all fall back appends one item per call, with
consecutive identifiers starting at `nextId`. -/
theorem runCalls_fallback_creates (calls : List (Db × Body)) (s : Store)
    (h : ∀ c ∈ calls, Unavailable c.1 ∧ c.2.text.truthy = true) :
    ∃ items : List Todo,
      runCalls (calls.map (fun c => (c.1, Request.create c.2))) s
          = ⟨s.todos ++ items, s.nextId + calls.length⟩
        ∧ items.length = calls.length
        ∧ ∀ k (hk : k < calls.length),
            items[k]? = some ⟨s.nextId + (k : Int), calls[k].2.text, .bool false⟩ := by
  induction calls generalizing s with
  | nil => exact ⟨[], by simp [runCalls], rfl, by simp⟩
  | cons c cs ih =>
    have hc := h c (List.mem_cons_self _ _)
    have hstep := createTodo_fallback c.1 c.2 s hc.2 (hc.1 _)
    obtain ⟨items, hrun, hlen, hget⟩ :=
      ih ⟨s.todos ++ [⟨s.nextId, c.2.text, .bool false⟩], s.nextId + 1⟩
        (fun d hd => h d (List.mem_cons_of_mem _ hd))
    refine ⟨⟨s.nextId, c.2.text, .bool false⟩ :: items, ?_, by simp [hlen], ?_⟩
    · simp only [List.map_cons, runCalls, handle, hstep, hrun, List.length_cons,
        List.append_assoc, List.singleton_append, Store.mk.injEq, true_and]
      push_cast
      ring
    · intro k hk
      cases k with
      | zero => simp
      | succ k =>
        have hk2 : k < cs.length := by simpa using hk
        have := hget k hk2
        simp only [List.getElem?_cons_succ, this, List.getElem_cons_succ, Option.some.injEq,
          Todo.mk.injEq, and_true]
        push_cast
        ring

/-- With strictly ascending identifiers an identifier names at most one item. -/
theorem eq_of_id_eq {l : List Todo} (hp : (l.map (·.id)).Pairwise (· < ·))
    {t u : Todo} (ht : t ∈ l) (hu : u ∈ l) (h : t.id = u.id) : t = u := by
  have hn : (l.map (·.id)).Nodup := hp.imp (fun hlt => ne_of_lt hlt)
  exact List.inj_on_of_nodup_map hn ht hu h

/-- The index found for the identifier of an item of the array, which holds
that item when identifiers are strictly ascending. -/
theorem findIndex_of_mem {l : List Todo} (hp : (l.map (·.id)).Pairwise (· < ·))
    {t : Todo} (ht : t ∈ l) :
    ∃ k, findIndex (idMatches (some t.id)) l = some k ∧ l.get? k = some t := by
  cases hf : findIndex (idMatches (some t.id)) l with
  | none =>
    have := findIndex_eq_none.mp hf t ht
    simp [idMatches] at this
  | some k =>
    obtain ⟨u, hu, hm⟩ := findIndex_eq_some_mem hf
    have hid : t.id = u.id := by simpa [idMatches] using hm
    have hmem : u ∈ l := List.get?_mem hu
    rw [← eq_of_id_eq hp ht hmem hid] at hu
    exact ⟨k, rfl, hu⟩

theorem updateTodo_fallback_missing (db : Db) (param : String) (body : Body) (s : Store)
    (hdb : ∃ e, db (.update body.text body.completed (parseInt param)) = .error e)
    (h : ∀ t ∈ s.todos, parseInt param ≠ some t.id) :
    updateTodo db param body s
      = { response := ⟨404, .error "Todo not found"⟩, store := s,
          queries := [.update body.text body.completed (parseInt param)] } := by
  obtain ⟨e, he⟩ := hdb
  have hf : findIndex (idMatches (parseInt param)) s.todos = none :=
    findIndex_eq_none.mpr (fun t ht => by simpa [idMatches] using h t ht)
  simp [updateTodo, he, hf]

theorem deleteTodo_fallback_missing (db : Db) (param : String) (s : Store)
    (hdb : ∃ e, db (.delete (parseInt param)) = .error e)
    (h : ∀ t ∈ s.todos, parseInt param ≠ some t.id) :
    deleteTodo db param s
      = { response := ⟨404, .error "Todo not found"⟩, store := s,
          queries := [.delete (parseInt param)] } := by
  obtain ⟨e, he⟩ := hdb
  have hf : findIndex (idMatches (parseInt param)) s.todos = none :=
    findIndex_eq_none.mpr (fun t ht => by simpa [idMatches] using h t ht)
  simp [deleteTodo, he, hf]

theorem deleteTodo_fallback_found (db : Db) (param : String) (s : Store) (k : Nat)
    (hdb : ∃ e, db (.delete (parseInt param)) = .error e)
    (hk : findIndex (idMatches (parseInt param)) s.todos = some k) :
    deleteTodo db param s
      = { response := ⟨204, .empty⟩, store := ⟨splice k s.todos, s.nextId⟩,
          queries := [.delete (parseInt param)] } := by
  obtain ⟨e, he⟩ := hdb
  simp [deleteTodo, he, hk]

theorem listTodos_ok (db : Db) (s : Store) (r : QueryResult) (h : db .selectAll = .ok r) :
    listTodos db s
      = { response := ⟨200, .rows r.rows⟩, store := s, queries := [.selectAll] } := by
  simp [listTodos, h]

theorem createTodo_ok (db : Db) (body : Body) (s : Store) (r : QueryResult)
    (ht : body.text.truthy = true) (h : db (.insert body.text false) = .ok r) :
    createTodo db body s
      = { response := ⟨201, .row r.rows.head?⟩, store := s,
          queries := [.insert body.text false] } := by
  simp [createTodo, ht, h]

theorem updateTodo_ok (db : Db) (param : String) (body : Body) (s : Store) (r : QueryResult)
    (h : db (.update body.text body.completed (parseInt param)) = .ok r) :
    updateTodo db param body s
      = { response :=
            if r.rows.length = 0 then ⟨404, .error "Todo not found"⟩
            else ⟨200, .row r.rows.head?⟩,
          store := s,
          queries := [.update body.text body.completed (parseInt param)] } := by
  by_cases hr : r.rows.length = 0 <;> simp [updateTodo, h, hr]

theorem deleteTodo_ok (db : Db) (param : String) (s : Store) (r : QueryResult)
    (h : db (.delete (parseInt param)) = .ok r) :
    deleteTodo db param s
      = { response := if r.rowCount = 0 then ⟨404, .error "Todo not found"⟩ else ⟨204, .empty⟩,
          store := s,
          queries := [.delete (parseInt param)] } := by
  by_cases hr : r.rowCount = 0 <;> simp [deleteTodo, h, hr]

/-- The queries a handler issues are fixed by the request alone. -/
theorem handle_queries (db : Db) (req : Request) (s : Store) :
    (handle db req s).queries
      = match req with
        | .list => [.selectAll]
        | .create body => if body.text.truthy then [.insert body.text false] else []
        | .update param body => [.update body.text body.completed (parseInt param)]
        | .delete param => [.delete (parseInt param)] := by
  cases req with
  | list =>
    simp only [handle, listTodos]
    split <;> rfl
  | create body =>
    simp only [handle, createTodo]
    by_cases ht : body.text.truthy = true
    · simp only [ht, Bool.not_true, Bool.false_eq_true, if_false, if_true]
      split <;> rfl
    · simp [ht]
  | update param body =>
    simp only [handle, updateTodo]
    split
    · split <;> rfl
    · split <;> rfl
  | delete param =>
    simp only [handle, deleteTodo]
    split
    · split <;> rfl
    · split <;> rfl

/-- When the query of a call succeeds, the response is a function of the
request and of the result, and the storage is returned as it was. -/
theorem handle_ok (db : Db) (req : Request) (s : Store) (q : Query) (r : QueryResult)
    (hq : (handle db req s).queries = [q]) (h : db q = .ok r) :
    (handle db req s).store = s
      ∧ (handle db req s).response = durableResponse req r := by
  rw [handle_queries] at hq
  cases req with
  | list =>
    simp only [List.cons.injEq, and_true] at hq
    subst hq
    simp only [handle]
    rw [listTodos_ok db s r h]
    exact ⟨rfl, rfl⟩
  | create body =>
    by_cases ht : body.text.truthy = true
    · simp only [ht, if_true, List.cons.injEq, and_true] at hq
      subst hq
      simp only [handle]
      rw [createTodo_ok db body s r ht h]
      exact ⟨rfl, rfl⟩
    · simp [ht] at hq
  | update param body =>
    simp only [List.cons.injEq, and_true] at hq
    subst hq
    simp only [handle]
    rw [updateTodo_ok db param body s r h]
    exact ⟨rfl, rfl⟩
  | delete param =>
    simp only [List.cons.injEq, and_true] at hq
    subst hq
    simp only [handle]
    rw [deleteTodo_ok db param s r h]
    exact ⟨rfl, rfl⟩

theorem wellFormed_setText {u : Todo} (hu : u.wellFormed = true) {x : String}
    (hx : x ≠ "") : ({ u with text := .str x } : Todo).wellFormed = true := by
  cases hc : u.completed <;> cases ht : u.text <;>
    simp_all [Todo.wellFormed]

theorem wellFormed_setCompleted {u : Todo} (hu : u.wellFormed = true) (b : Bool) :
    ({ u with completed := .bool b } : Todo).wellFormed = true := by
  cases hc : u.completed <;> cases ht : u.text <;>
    simp_all [Todo.wellFormed]

theorem setText_wellFormed {l : List Todo} (h : ∀ t ∈ l, t.wellFormed = true)
    {x : String} (hx : x ≠ "") (k : Nat) :
    ∀ t ∈ setText (.str x) k l, t.wellFormed = true := by
  induction l generalizing k with
  | nil => cases k <;> simp [setText]
  | cons u us ih =>
    have hu := h u (List.mem_cons_self _ _)
    have hus : ∀ t ∈ us, t.wellFormed = true := fun t ht => h t (List.mem_cons_of_mem _ ht)
    cases k with
    | zero =>
      intro t ht
      simp only [setText, List.mem_cons] at ht
      rcases ht with rfl | ht
      · exact wellFormed_setText hu hx
      · exact hus t ht
    | succ k =>
      intro t ht
      simp only [setText, List.mem_cons] at ht
      rcases ht with rfl | ht
      · exact hu
      · exact ih hus k t ht

theorem setCompleted_wellFormed {l : List Todo} (h : ∀ t ∈ l, t.wellFormed = true)
    (b : Bool) (k : Nat) :
    ∀ t ∈ setCompleted (.bool b) k l, t.wellFormed = true := by
  induction l generalizing k with
  | nil => cases k <;> simp [setCompleted]
  | cons u us ih =>
    have hu := h u (List.mem_cons_self _ _)
    have hus : ∀ t ∈ us, t.wellFormed = true := fun t ht => h t (List.mem_cons_of_mem _ ht)
    cases k with
    | zero =>
      intro t ht
      simp only [setCompleted, List.mem_cons] at ht
      rcases ht with rfl | ht
      · exact wellFormed_setCompleted hu b
      · exact hus t ht
    | succ k =>
      intro t ht
      simp only [setCompleted, List.mem_cons] at ht
      rcases ht with rfl | ht
      · exact hu
      · exact ih hus k t ht

/-- A handler serving a well-typed request keeps every stored item well
formed. -/
theorem handle_wellFormed (db : Db) (req : Request) {s : Store}
    (hty : req.wellTyped = true) (h : ∀ t ∈ s.todos, t.wellFormed = true) :
    ∀ t ∈ (handle db req s).store.todos, t.wellFormed = true := by
  cases req with
  | list =>
    simp only [handle]
    rw [list_store]
    exact h
  | create body =>
    simp only [handle, createTodo]
    split
    · exact h
    · rename_i htruthy
      split
      · exact h
      · intro t ht
        simp only [List.mem_append, List.mem_singleton] at ht
        rcases ht with ht | rfl
        · exact h t ht
        · simp only [Request.wellTyped] at hty
          cases hb : body.text <;> simp_all [JsVal.stringOrAbsent, JsVal.truthy, Todo.wellFormed]
  | update param body =>
    simp only [Request.wellTyped, Bool.and_eq_true] at hty
    obtain ⟨htext, hcomp⟩ := hty
    simp only [handle, updateTodo]
    split
    · split <;> exact h
    · split
      · exact h
      · rename_i k _
        have h1 : ∀ t ∈ (if body.text ≠ .undefined then setText body.text k s.todos
            else s.todos), t.wellFormed = true := by
          cases hb : body.text with
          | undefined => simpa using h
          | str x =>
            have hx : x ≠ "" := by simpa [hb, JsVal.nonEmptyStringOrAbsent] using htext
            simpa using setText_wellFormed h hx k
          | null => simp [hb, JsVal.nonEmptyStringOrAbsent] at htext
          | bool b => simp [hb, JsVal.nonEmptyStringOrAbsent] at htext
          | num n => simp [hb, JsVal.nonEmptyStringOrAbsent] at htext
          | object => simp [hb, JsVal.nonEmptyStringOrAbsent] at htext
        cases hc : body.completed with
        | undefined => simpa using h1
        | bool b => simpa using setCompleted_wellFormed h1 b k
        | null => simp [hc, JsVal.boolOrAbsent] at hcomp
        | str x => simp [hc, JsVal.boolOrAbsent] at hcomp
        | num n => simp [hc, JsVal.boolOrAbsent] at hcomp
        | object => simp [hc, JsVal.boolOrAbsent] at hcomp
  | delete param =>
    simp only [handle, deleteTodo]
    split
    · split <;> exact h
    · split
      · exact h
      · intro t ht
        exact h t ((List.eraseIdx_sublist _ _).subset ht)

/-! ## The claims -/

/-- C1: a create request whose `text` is absent (undefined) or the empty string
is answered with status 400 and the error `Text is required`, whatever the
storage and whatever the relational store would do: no query is issued, and
the array `todos` and `nextId` are unchanged. -/
theorem create_without_text_rejected (db : Db) (body : Body) (s : Store)
    (h : body.text = .undefined ∨ body.text = .str "") :
    createTodo db body s
      = { response := ⟨400, .error "Text is required"⟩, store := s, queries := [] } := by
  rcases h with h | h <;> simp [createTodo, h, JsVal.truthy]

theorem create_without_text_rejected_witness :
    ((Body.mk (.str "") (.bool true)).text = .undefined
        ∨ (Body.mk (.str "") (.bool true)).text = .str "")
      ∧ createTodo (fun _ => .ok ⟨[], 0⟩) ⟨.str "", .bool true⟩ initialStore
          = { response := ⟨400, .error "Text is required"⟩, store := initialStore,
              queries := [] } :=
  ⟨Or.inr rfl, create_without_text_rejected _ _ _ (Or.inr rfl)⟩

set_option maxRecDepth 100000 in
/-- C2, as stated, fails on the durable path: the handler answers with the
row the relational store returns, and for the text made of `a` followed by
255 spaces the column `VARCHAR(255)` stores and returns the text cut to 255
characters, so the item answered with status 201 does not carry the text of
the request. -/
theorem create_durable_text_not_exact :
    String.mk ('a' :: List.replicate 255 ' ') ≠ ""
      ∧ Reachable initialStore
      ∧ (createTodo varcharDb ⟨.str (String.mk ('a' :: List.replicate 255 ' ')), .undefined⟩
            initialStore).response
          = ⟨201, .row (some ⟨1, String.mk ('a' :: List.replicate 254 ' '), some false, none⟩)⟩
      ∧ ¬ ∃ item : Todo,
          (createTodo varcharDb
              ⟨.str (String.mk ('a' :: List.replicate 255 ' ')), .undefined⟩
              initialStore).response.body.item? = some item
            ∧ item.text = .str (String.mk ('a' :: List.replicate 255 ' ')) := by
  have hresp : (createTodo varcharDb
      ⟨.str (String.mk ('a' :: List.replicate 255 ' ')), .undefined⟩ initialStore).response
        = ⟨201, .row (some ⟨1, String.mk ('a' :: List.replicate 254 ' '), some false, none⟩)⟩ := by
    rfl
  refine ⟨?_, ReachableFrom.refl, hresp, ?_⟩
  · intro h
    have hlen := congrArg String.length h
    simp [String.length] at hlen
  · rw [hresp]
    rintro ⟨item, hitem, htext⟩
    simp only [Payload.item?, Option.map_some', Option.some.injEq] at hitem
    subst hitem
    simp only [Row.toTodo, JsVal.str.injEq] at htext
    have hlen := congrArg String.length htext
    simp [String.length] at hlen

/-- C2, amended: for a text that is a non-empty string and a reachable
storage, create answers with status 201.  When the insertion fails the body is
the new in-memory item, whose text is that text, whose `completed` is false
and whose id is the positive value `nextId` had before the call; the item is
appended and `nextId` grows by one.  When the insertion succeeds the body is
the first row of the result as the relational store returned it, and the
storage is unchanged. -/
theorem create_valid_text_answer (s : Store) (hs : Reachable s) (db : Db)
    (t : String) (ht : t ≠ "") (c : JsVal) :
    (createTodo db ⟨.str t, c⟩ s).response.status = 201
      ∧ (∀ e, db (.insert (.str t) false) = .error e →
          (createTodo db ⟨.str t, c⟩ s).response.body
              = .todo (some ⟨s.nextId, .str t, .bool false⟩)
            ∧ 0 < s.nextId
            ∧ (createTodo db ⟨.str t, c⟩ s).store
              = ⟨s.todos ++ [⟨s.nextId, .str t, .bool false⟩], s.nextId + 1⟩)
      ∧ (∀ r, db (.insert (.str t) false) = .ok r →
          (createTodo db ⟨.str t, c⟩ s).response.body = .row r.rows.head?
            ∧ (createTodo db ⟨.str t, c⟩ s).store = s) := by
  have hpos : 0 < s.nextId := (reachable_storeInv hs).2.2
  refine ⟨?_, ?_, ?_⟩
  · cases hq : db (.insert (.str t) false) with
    | error e =>
      rw [createTodo_fallback db ⟨.str t, c⟩ s (truthy_str ht) ⟨e, hq⟩]
    | ok r =>
      rw [createTodo_ok db ⟨.str t, c⟩ s r (truthy_str ht) hq]
  · intro e hq
    rw [createTodo_fallback db ⟨.str t, c⟩ s (truthy_str ht) ⟨e, hq⟩]
    exact ⟨rfl, hpos, rfl⟩
  · intro r hq
    rw [createTodo_ok db ⟨.str t, c⟩ s r (truthy_str ht) hq]
    exact ⟨rfl, rfl⟩

theorem create_valid_text_answer_witness :
    (createTodo (downDb "down") ⟨.str "a", .undefined⟩ initialStore).response.status = 201
      ∧ (createTodo (downDb "down") ⟨.str "a", .undefined⟩ initialStore).response.body
        = .todo (some ⟨4, .str "a", .bool false⟩)
      ∧ (createTodo (downDb "down") ⟨.str "a", .undefined⟩ initialStore).store.nextId = 5
      ∧ (createTodo varcharDb ⟨.str "a", .undefined⟩ initialStore).response.body
        = .row (some ⟨1, "a", some false, none⟩) := by
  have h1 := create_valid_text_answer initialStore ReachableFrom.refl (downDb "down") "a"
    (by decide) .undefined
  have h2 := create_valid_text_answer initialStore ReachableFrom.refl varcharDb "a"
    (by decide) .undefined
  obtain ⟨hb, _, hst⟩ := h1.2.1 "down" rfl
  obtain ⟨hb2, _⟩ := h2.2.2 ⟨[⟨1, "a", some false, none⟩], 1⟩ rfl
  refine ⟨h1.1, hb, ?_, hb2⟩
  rw [hst]
  rfl

/-- C3: with the relational store failing throughout and starting from the
initial storage (seed items 1, 2, 3 and `nextId = 4`), the first create with
text "a" answers 201 with id 4, and a list that follows returns the three
seed items followed by the new item.  After `n` consecutive creates that fall
back, with non-empty string texts, list returns the three seed items followed
by `n` items, the item at position `k` (from 0) having id `4 + k`, the text of
call `k` and `completed = false`. -/
theorem fallback_creates_then_list (calls : List (Db × Body)) (db : Db)
    (hdb : Unavailable db)
    (h : ∀ c ∈ calls, Unavailable c.1 ∧ ∃ t, c.2.text = .str t ∧ t ≠ "") :
    (∀ db1 c, Unavailable db1 →
        (createTodo db1 ⟨.str "a", c⟩ initialStore).response
            = ⟨201, .todo (some ⟨4, .str "a", .bool false⟩)⟩
          ∧ (listTodos db (createTodo db1 ⟨.str "a", c⟩ initialStore).store).response
            = ⟨200, .todos
                [ ⟨1, .str "Learn DevOps", .bool false⟩,
                  ⟨2, .str "Fix hardcoded values", .bool false⟩,
                  ⟨3, .str "Deploy to production", .bool false⟩,
                  ⟨4, .str "a", .bool false⟩ ]⟩)
      ∧ ∃ items : List Todo,
          (listTodos db
              (runCalls (calls.map (fun c => (c.1, Request.create c.2))) initialStore)).response
            = ⟨200, .todos (initialStore.todos ++ items)⟩
          ∧ items.length = calls.length
          ∧ ∀ k (hk : k < calls.length),
              items[k]? = some ⟨4 + (k : Int), calls[k].2.text, .bool false⟩ := by
  constructor
  · intro db1 c h1
    rw [createTodo_fallback db1 ⟨.str "a", c⟩ initialStore (truthy_str (by decide)) (h1 _),
      listTodos_fallback db _ (hdb _)]
    exact ⟨rfl, rfl⟩
  · obtain ⟨items, hrun, hlen, hget⟩ := runCalls_fallback_creates calls initialStore
      (fun c hc => by
        obtain ⟨hu, t, ht, hne⟩ := h c hc
        exact ⟨hu, by rw [ht]; exact truthy_str hne⟩)
    refine ⟨items, ?_, hlen, hget⟩
    rw [listTodos_fallback db _ (hdb _), hrun]

theorem fallback_creates_then_list_witness :
    (listTodos (downDb "down")
        (runCalls
          ([(downDb "down", Body.mk (.str "a") .undefined),
            (downDb "timeout", Body.mk (.str "b") (.bool true))].map
              (fun c => (c.1, Request.create c.2))) initialStore)).response
      = ⟨200, .todos
          [ ⟨1, .str "Learn DevOps", .bool false⟩,
            ⟨2, .str "Fix hardcoded values", .bool false⟩,
            ⟨3, .str "Deploy to production", .bool false⟩,
            ⟨4, .str "a", .bool false⟩,
            ⟨5, .str "b", .bool false⟩ ]⟩ := by
  have h := (fallback_creates_then_list
    [(downDb "down", Body.mk (.str "a") .undefined),
      (downDb "timeout", Body.mk (.str "b") (.bool true))]
    (downDb "down") (fun _ => ⟨"down", rfl⟩)
    (by
      intro c hc
      simp only [List.mem_cons, List.mem_singleton, List.not_mem_nil, or_false] at hc
      rcases hc with rfl | rfl
      · exact ⟨fun _ => ⟨"down", rfl⟩, "a", rfl, by decide⟩
      · exact ⟨fun _ => ⟨"timeout", rfl⟩, "b", rfl, by decide⟩)).2
  obtain ⟨items, hresp, hlen, hget⟩ := h
  have h0 := hget 0 (by decide)
  have h1 := hget 1 (by decide)
  rw [hresp]
  match items, hlen, h0, h1 with
  | [x, y], _, h0, h1 =>
    simp only [List.getElem?_cons_zero, List.getElem?_cons_succ, Option.some.injEq] at h0 h1
    subst h0 h1
    rfl

/-- C4: with the relational store failing, in a reachable storage, an update
of an existing id with `completed = true` and no `text` answers 200 with the
item whose `completed` is now true and whose id and text are as before; in the
array every item keeps its position, the items with another id are unchanged,
the item with that id differs only in `completed`, and `nextId` is unchanged. -/
theorem update_completed_only (s : Store) (hs : Reachable s) (db : Db)
    (hdb : Unavailable db) (param : String) (t : Todo) (ht : t ∈ s.todos)
    (hp : parseInt param = some t.id) :
    (updateTodo db param ⟨.undefined, .bool true⟩ s).response
        = ⟨200, .todo (some { id := t.id, text := t.text, completed := .bool true })⟩
      ∧ (updateTodo db param ⟨.undefined, .bool true⟩ s).store.nextId = s.nextId
      ∧ (updateTodo db param ⟨.undefined, .bool true⟩ s).store.todos
          = s.todos.map (fun x =>
              if x.id = t.id then { id := x.id, text := x.text, completed := .bool true }
              else x) := by
  have hinv := (reachable_storeInv hs).1
  obtain ⟨k, hk, hget⟩ := findIndex_of_mem hinv ht
  obtain ⟨e, he⟩ := hdb (.update .undefined (.bool true) (parseInt param))
  have hset := setCompleted_at_found (.bool true) t.id hinv hk
  rw [hp] at he
  have hget2 : s.todos[k]? = some t := by simpa using hget
  simp [updateTodo, he, hp, hk, hset, hget2]

theorem update_completed_only_witness :
    (updateTodo (downDb "down") "2" ⟨.undefined, .bool true⟩ initialStore).response
        = ⟨200, .todo (some ⟨2, .str "Fix hardcoded values", .bool true⟩)⟩
      ∧ (updateTodo (downDb "down") "2" ⟨.undefined, .bool true⟩ initialStore).store.nextId = 4
      ∧ (updateTodo (downDb "down") "2" ⟨.undefined, .bool true⟩ initialStore).store.todos
          = initialStore.todos.map (fun x =>
              if x.id = 2 then { id := x.id, text := x.text, completed := .bool true }
              else x) :=
  update_completed_only initialStore ReachableFrom.refl (downDb "down")
    (fun _ => ⟨"down", rfl⟩) "2" ⟨2, .str "Fix hardcoded values", .bool false⟩
    (by decide) (by decide)

/-- C5: with the relational store failing, when no item of the array has the
id parsed from the request (in particular when it parses to `NaN`), update and
delete both answer 404 with the error `Todo not found`, and the array and
`nextId` are unchanged.  This holds in every storage, reachable or not. -/
theorem missing_id_not_found (s : Store) (db : Db) (hdb : Unavailable db)
    (param : String) (body : Body) (h : ∀ t ∈ s.todos, parseInt param ≠ some t.id) :
    (updateTodo db param body s).response = ⟨404, .error "Todo not found"⟩
      ∧ (updateTodo db param body s).store = s
      ∧ (deleteTodo db param s).response = ⟨404, .error "Todo not found"⟩
      ∧ (deleteTodo db param s).store = s := by
  rw [updateTodo_fallback_missing db param body s (hdb _) h,
    deleteTodo_fallback_missing db param s (hdb _) h]
  exact ⟨rfl, rfl, rfl, rfl⟩

theorem missing_id_not_found_witness :
    ((updateTodo (downDb "down") "abc" ⟨.str "x", .undefined⟩ initialStore).response
        = ⟨404, .error "Todo not found"⟩
      ∧ (updateTodo (downDb "down") "abc" ⟨.str "x", .undefined⟩ initialStore).store
        = initialStore
      ∧ (deleteTodo (downDb "down") "abc" initialStore).response
        = ⟨404, .error "Todo not found"⟩
      ∧ (deleteTodo (downDb "down") "abc" initialStore).store = initialStore)
    ∧ ((updateTodo (downDb "down") "7" ⟨.str "x", .undefined⟩ initialStore).response
        = ⟨404, .error "Todo not found"⟩
      ∧ (updateTodo (downDb "down") "7" ⟨.str "x", .undefined⟩ initialStore).store
        = initialStore
      ∧ (deleteTodo (downDb "down") "7" initialStore).response
        = ⟨404, .error "Todo not found"⟩
      ∧ (deleteTodo (downDb "down") "7" initialStore).store = initialStore) :=
  ⟨missing_id_not_found initialStore (downDb "down") (fun _ => ⟨"down", rfl⟩) "abc"
      ⟨.str "x", .undefined⟩ (by decide),
    missing_id_not_found initialStore (downDb "down") (fun _ => ⟨"down", rfl⟩) "7"
      ⟨.str "x", .undefined⟩ (by decide)⟩

/-- C6: with the relational store failing throughout, in a reachable storage,
deleting an id that the array holds and deleting it again: the first call
answers 204 with an empty body and removes exactly the item with that id, the
other items and their order being unchanged, and the second call answers 404
and changes nothing. -/
theorem delete_twice (s : Store) (hs : Reachable s) (db1 db2 : Db)
    (h1 : Unavailable db1) (h2 : Unavailable db2) (param : String) (t : Todo)
    (ht : t ∈ s.todos) (hp : parseInt param = some t.id) :
    (deleteTodo db1 param s).response = ⟨204, .empty⟩
      ∧ (deleteTodo db1 param s).store.todos = s.todos.filter (fun x => decide (x.id ≠ t.id))
      ∧ (deleteTodo db1 param s).store.todos.length + 1 = s.todos.length
      ∧ (deleteTodo db1 param s).store.nextId = s.nextId
      ∧ (deleteTodo db2 param (deleteTodo db1 param s).store).response
          = ⟨404, .error "Todo not found"⟩
      ∧ (deleteTodo db2 param (deleteTodo db1 param s).store).store
          = (deleteTodo db1 param s).store := by
  have hinv := (reachable_storeInv hs).1
  obtain ⟨k, hk, _⟩ := findIndex_of_mem hinv ht
  obtain ⟨hsplice, hlen⟩ := splice_at_found t.id hinv hk
  rw [← hp] at hk
  have hfirst := deleteTodo_fallback_found db1 param s k (h1 _) hk
  have hsecond := deleteTodo_fallback_missing db2 param ⟨splice k s.todos, s.nextId⟩ (h2 _)
    (by
      intro u hu
      simp only [hsplice, List.mem_filter, decide_eq_true_eq] at hu
      rw [hp]
      intro heq
      exact hu.2 (Option.some.inj heq).symm)
  rw [hfirst, hsecond]
  exact ⟨rfl, hsplice, hlen, rfl, rfl, rfl⟩

theorem delete_twice_witness :
    (deleteTodo (downDb "down") "2" initialStore).response = ⟨204, .empty⟩
      ∧ (deleteTodo (downDb "down") "2" initialStore).store.todos
          = initialStore.todos.filter (fun x => decide (x.id ≠ 2))
      ∧ (deleteTodo (downDb "down") "2" initialStore).store.todos.length + 1
          = initialStore.todos.length
      ∧ (deleteTodo (downDb "down") "2" initialStore).store.nextId = 4
      ∧ (deleteTodo (downDb "late") "2"
            (deleteTodo (downDb "down") "2" initialStore).store).response
          = ⟨404, .error "Todo not found"⟩
      ∧ (deleteTodo (downDb "late") "2"
            (deleteTodo (downDb "down") "2" initialStore).store).store
          = (deleteTodo (downDb "down") "2" initialStore).store :=
  delete_twice initialStore ReachableFrom.refl (downDb "down") (downDb "late")
    (fun _ => ⟨"down", rfl⟩) (fun _ => ⟨"late", rfl⟩) "2"
    ⟨2, .str "Fix hardcoded values", .bool false⟩ (by decide) (by decide)

/-- C7: whenever the query of a list, create, update or delete call returns
without error, the response is fixed by the request and the result of the
query alone, and the array and `nextId` are unchanged, whatever the storage
holds and therefore whatever earlier calls did: list answers the rows of the
result; create answers 201 with the first row; update answers 404 when the
result has no row and 200 with the first row otherwise; delete answers 404
when the row count is 0 and 204 otherwise.  Two calls with the same request
and the same successful result answer alike from any two storages. -/
theorem durable_answer_hides_fallback (db : Db) (s : Store) (r : QueryResult) :
    (db .selectAll = .ok r →
        listTodos db s
          = { response := ⟨200, .rows r.rows⟩, store := s, queries := [.selectAll] })
      ∧ (∀ body : Body, body.text.truthy = true → db (.insert body.text false) = .ok r →
          createTodo db body s
            = { response := ⟨201, .row r.rows.head?⟩, store := s,
                queries := [.insert body.text false] })
      ∧ (∀ param body, db (.update body.text body.completed (parseInt param)) = .ok r →
          updateTodo db param body s
            = { response :=
                  if r.rows.length = 0 then ⟨404, .error "Todo not found"⟩
                  else ⟨200, .row r.rows.head?⟩,
                store := s,
                queries := [.update body.text body.completed (parseInt param)] })
      ∧ (∀ param, db (.delete (parseInt param)) = .ok r →
          deleteTodo db param s
            = { response :=
                  if r.rowCount = 0 then ⟨404, .error "Todo not found"⟩ else ⟨204, .empty⟩,
                store := s,
                queries := [.delete (parseInt param)] })
      ∧ (∀ (req : Request) (db2 : Db) (s2 : Store) (q : Query),
          (handle db req s).queries = [q] → db q = .ok r → db2 q = .ok r →
            (handle db2 req s2).response = (handle db req s).response
              ∧ (handle db req s).store = s ∧ (handle db2 req s2).store = s2) := by
  refine ⟨listTodos_ok db s r, fun body ht h => createTodo_ok db body s r ht h,
    fun param body h => updateTodo_ok db param body s r h,
    fun param h => deleteTodo_ok db param s r h, ?_⟩
  intro req db2 s2 q hq h1 h2
  have hq2 : (handle db2 req s2).queries = [q] := by
    rw [handle_queries] at hq ⊢
    exact hq
  obtain ⟨hs1, hr1⟩ := handle_ok db req s q r hq h1
  obtain ⟨hs2, hr2⟩ := handle_ok db2 req s2 q r hq2 h2
  exact ⟨by rw [hr1, hr2], hs1, hs2⟩

theorem durable_answer_hides_fallback_witness :
    updateTodo (fun _ => .ok ⟨[], 0⟩) "1" ⟨.str "x", .undefined⟩ initialStore
        = { response := ⟨404, .error "Todo not found"⟩, store := initialStore,
            queries := [.update (.str "x") .undefined (some 1)] }
      ∧ deleteTodo (fun _ => .ok ⟨[], 0⟩) "1" initialStore
        = { response := ⟨404, .error "Todo not found"⟩, store := initialStore,
            queries := [.delete (some 1)] }
      ∧ listTodos (fun _ => .ok ⟨[], 0⟩) initialStore
        = { response := ⟨200, .rows []⟩, store := initialStore, queries := [.selectAll] } :=
  ⟨(durable_answer_hides_fallback (fun _ => .ok ⟨[], 0⟩) initialStore ⟨[], 0⟩).2.2.1 "1"
      ⟨.str "x", .undefined⟩ rfl,
    (durable_answer_hides_fallback (fun _ => .ok ⟨[], 0⟩) initialStore ⟨[], 0⟩).2.2.2.1 "1" rfl,
    (durable_answer_hides_fallback (fun _ => .ok ⟨[], 0⟩) initialStore ⟨[], 0⟩).1 rfl⟩

/-- C10: with the relational store failing for both calls, in any storage,
after a create with a non-empty string text answers 201 with item X, a list
that follows returns the items that were in the array before, unchanged and
in the same order, followed by X as the last element. -/
theorem create_then_list (s : Store) (db1 db2 : Db) (h1 : Unavailable db1)
    (h2 : Unavailable db2) (t : String) (ht : t ≠ "") (c : JsVal) :
    ∃ x : Todo,
      (createTodo db1 ⟨.str t, c⟩ s).response = ⟨201, .todo (some x)⟩
        ∧ (listTodos db2 (createTodo db1 ⟨.str t, c⟩ s).store).response
            = ⟨200, .todos (s.todos ++ [x])⟩ := by
  refine ⟨⟨s.nextId, .str t, .bool false⟩, ?_⟩
  rw [createTodo_fallback db1 ⟨.str t, c⟩ s (truthy_str ht) (h1 _),
    listTodos_fallback db2 _ (h2 _)]
  exact ⟨rfl, rfl⟩

theorem create_then_list_witness :
    ∃ x : Todo,
      (createTodo (downDb "down") ⟨.str "buy milk", .undefined⟩ initialStore).response
          = ⟨201, .todo (some x)⟩
        ∧ (listTodos (downDb "down")
              (createTodo (downDb "down") ⟨.str "buy milk", .undefined⟩ initialStore).store).response
            = ⟨200, .todos (initialStore.todos ++ [x])⟩ :=
  create_then_list initialStore (downDb "down") (downDb "down") (fun _ => ⟨"down", rfl⟩)
    (fun _ => ⟨"down", rfl⟩) "buy milk" (by decide) .undefined

/-- C8: in every storage reachable from the initial one by any sequence of
list, create, update and delete calls, with any behaviour of the relational
store at each call, the ids of the array are strictly ascending in array
order, hence pairwise distinct, and every id is positive and smaller than
`nextId`.  Consequently an id below `nextId` that no item has is not held by
any item of any later storage (an id is not given again after a delete), and
the list answered on fallback is the array, ordered by ascending id. -/
theorem transient_ids_ascending (s : Store) (hs : Reachable s) :
    (s.todos.map (·.id)).Pairwise (· < ·)
      ∧ (s.todos.map (·.id)).Nodup
      ∧ (∀ t ∈ s.todos, 0 < t.id ∧ t.id < s.nextId)
      ∧ (∀ s2, ReachableFrom s s2 →
          s.nextId ≤ s2.nextId
            ∧ ∀ i, i < s.nextId → (∀ t ∈ s.todos, t.id ≠ i) → ∀ t ∈ s2.todos, t.id ≠ i)
      ∧ (∀ db, Unavailable db → (listTodos db s).response = ⟨200, .todos s.todos⟩) := by
  obtain ⟨hp, hb, _⟩ := reachable_storeInv hs
  refine ⟨hp, hp.imp (fun hlt => ne_of_lt hlt), ?_, ?_, ?_⟩
  · intro t ht
    exact hb t.id (List.mem_map_of_mem _ ht)
  · intro s2 h2
    obtain ⟨hle, hfresh⟩ := reachableFrom_fresh h2
    refine ⟨hle, ?_⟩
    intro i hi hni t ht heq
    apply hfresh i hi
    · intro hmem
      obtain ⟨u, hu, hui⟩ := List.mem_map.mp hmem
      exact hni u hu hui
    · exact List.mem_map.mpr ⟨t, ht, heq⟩
  · intro db hdb
    rw [listTodos_fallback db s (hdb _)]

theorem transient_ids_ascending_witness :
    (((runCalls
          [(downDb "down", .create ⟨.str "a", .undefined⟩),
            (downDb "down", .delete "4"),
            (downDb "down", .create ⟨.str "b", .undefined⟩)] initialStore).todos.map
        (·.id)) = [1, 2, 3, 5])
      ∧ ((runCalls
          [(downDb "down", .create ⟨.str "a", .undefined⟩),
            (downDb "down", .delete "4"),
            (downDb "down", .create ⟨.str "b", .undefined⟩)] initialStore).todos.map
        (·.id)).Pairwise (· < ·) :=
  ⟨by decide,
    (transient_ids_ascending
      (runCalls
        [(downDb "down", .create ⟨.str "a", .undefined⟩),
          (downDb "down", .delete "4"),
          (downDb "down", .create ⟨.str "b", .undefined⟩)] initialStore)
      ((reachableFrom_iff_runCalls _ _).mpr ⟨_, rfl⟩)).1⟩

/-- C9, as stated, fails: storages reached from the initial one hold an item
with an empty text (update with `text = ""`), an item whose `completed` is not
a boolean (update with `completed = null`) and an item whose text is not a
string (create with `text = 5`). -/
theorem stored_item_data_model_fails :
    (Reachable (handle (downDb "down") (.update "1" ⟨.str "", .undefined⟩) initialStore).store
        ∧ ¬ ∀ t ∈ (handle (downDb "down") (.update "1" ⟨.str "", .undefined⟩)
              initialStore).store.todos, t.wellFormed = true)
      ∧ (Reachable (handle (downDb "down") (.update "1" ⟨.undefined, .null⟩) initialStore).store
        ∧ ¬ ∀ t ∈ (handle (downDb "down") (.update "1" ⟨.undefined, .null⟩)
              initialStore).store.todos, t.wellFormed = true)
      ∧ (Reachable (handle (downDb "down") (.create ⟨.num 5, .undefined⟩) initialStore).store
        ∧ ¬ ∀ t ∈ (handle (downDb "down") (.create ⟨.num 5, .undefined⟩)
              initialStore).store.todos, t.wellFormed = true) :=
  ⟨⟨ReachableFrom.step _ _ ReachableFrom.refl, by decide⟩,
    ⟨ReachableFrom.step _ _ ReachableFrom.refl, by decide⟩,
    ⟨ReachableFrom.step _ _ ReachableFrom.refl, by decide⟩⟩

/-- C9, amended: in every storage reached from the initial one by calls whose
bodies are typed as the data model asks (the `text` of a create is absent or a
string; the `text` of an update is absent or a non-empty string and its
`completed` is absent or a boolean), every item of the array has a non-empty
string as text and a boolean as `completed`. -/
theorem typed_requests_keep_data_model (calls : List (Db × Request))
    (h : ∀ c ∈ calls, c.2.wellTyped = true) :
    ∀ t ∈ (runCalls calls initialStore).todos, t.wellFormed = true := by
  suffices H : ∀ s : Store, (∀ t ∈ s.todos, t.wellFormed = true) →
      ∀ t ∈ (runCalls calls s).todos, t.wellFormed = true from
    H initialStore (by decide)
  induction calls with
  | nil => exact fun s hs => hs
  | cons c cs ih =>
    intro s hs
    exact ih (fun d hd => h d (List.mem_cons_of_mem _ hd)) _
      (handle_wellFormed c.1 c.2 (h c (List.mem_cons_self _ _)) hs)

theorem typed_requests_keep_data_model_witness :
    (runCalls
        [(downDb "down", .create ⟨.str "a", .undefined⟩),
          (downDb "down", .update "4" ⟨.str "b", .bool true⟩),
          (downDb "down", .create ⟨.str "", .undefined⟩),
          (downDb "down", .delete "1")] initialStore).todos.all Todo.wellFormed = true :=
  List.all_eq_true.mpr (typed_requests_keep_data_model _ (by decide))

end TodoServer
